import Mathlib

set_option autoImplicit false

/-!
Shallow embedding of the chat relay server in `src/app.py`: the in-memory
presence map `connected_users`, the Base44 history-store client, the HTTP
`check_username` endpoint, and the five websocket event handlers
(`register_user`, `new_message`, `typing`, `stop_typing`, `disconnect`).

Conventions of the embedding:
* A websocket connection identifier (`request.sid`) is a natural number.
* The Python dict `connected_users` (`sid -> username`, insertion ordered,
  unique keys) is a `List (Conn × Username)`; `dictGet`, `dictSet`,
  `dictRemove` mirror `d[k]` lookup, `d[k] = v` assignment (update in place,
  append when fresh) and `d.pop(k, None)`.
* The remote Base44 client is a `Store` value: its `records` list is the
  remote Chat entity table, and the flags `getFails` / `postFails` say
  whether the next GET / POST raises `requests.RequestException`.
* Each handler is a pure function returning `Except PyError HandlerResult`:
  `.ok` carries the new state, the ordered list of emit directives, and the
  ordered list of store calls attempted; `.error .keyError` models an
  unhandled Python `KeyError` escaping the handler, in which case the global
  state was not mutated, nothing was emitted and no store call was made
  (the embedding returns the error at exactly the point where the source
  raises, and every raise point precedes any mutation, emit, or store call).
* Python truthiness of strings matters: `if username:` is false for the
  empty string, and the handlers test `u = ""` wherever the source tests
  truthiness.
* `emit(e, p)` goes to the requesting sid only; `broadcast=True` goes to
  every connected socket; `broadcast=True, include_self=False` excludes the
  sender. `deliversTo live r c` says whether a directive with recipient `r`
  reaches connection `c` when `live` is the list of connected sockets.
-/

namespace ChatRoom

abbrev Conn := Nat
abbrev Username := String

/-- One record of the remote Chat entity, as exchanged with the store:
`{username, message, createdAt}`. -/
structure ChatMessage where
  username : String
  message : String
  createdAt : String
deriving DecidableEq

/-- Model of the `Base44Client`: the remote table plus failure flags for the
next GET (used by `get_messages` and `is_username_taken`) and POST. -/
structure Store where
  records : List ChatMessage
  getFails : Bool
  postFails : Bool
deriving DecidableEq

/-- Embeds `Base44Client.get_messages` (src/app.py lines 27-30): returns the
remote table, or raises on HTTP failure. -/
def Store.get_messages (s : Store) : Except Unit (List ChatMessage) :=
  if s.getFails then .error () else .ok s.records

/-- Embeds `Base44Client.post_message` (src/app.py lines 32-36): appends one
record remotely, or raises on HTTP failure.  The caller ignores the echoed
record, so the embedding returns `Unit`. -/
def Store.post_message (s : Store) (_username _message : String) : Except Unit Unit :=
  if s.postFails then .error () else .ok ()

/-- Embeds `Base44Client.is_username_taken` (src/app.py lines 38-42): filters
the remote table on the username and tests `len(...) > 0`. -/
def Store.is_username_taken (s : Store) (u : String) : Except Unit Bool :=
  if s.getFails then .error ()
  else .ok (decide (0 < (s.records.filter (fun m => m.username = u)).length))

/-- The in-memory map `connected_users = {sid: username}` (src/app.py
line 45), as an insertion-ordered association list with unique keys. -/
abbrev UserMap := List (Conn × Username)

/-- Python dict lookup `d.get(k)`: first entry with the key. -/
def dictGet : UserMap → Conn → Option Username
  | [], _ => none
  | (k2, v) :: rest, k => if k = k2 then some v else dictGet rest k

/-- Python dict assignment `d[k] = v`: overwrite in place when the key is
present, append at the end when it is fresh. -/
def dictSet : UserMap → Conn → Username → UserMap
  | [], k, v => [(k, v)]
  | (k2, v2) :: rest, k, v =>
      if k = k2 then (k, v) :: rest else (k2, v2) :: dictSet rest k v

/-- Python `d.pop(k, None)` restricted to the surviving map: removes the
first entry with the key, leaves the map unchanged when the key is absent. -/
def dictRemove : UserMap → Conn → UserMap
  | [], _ => []
  | (k2, v2) :: rest, k =>
      if k = k2 then rest else (k2, v2) :: dictRemove rest k

/-- Python `list(d.values())`: the usernames in insertion order, with
multiplicity. -/
def dictValues (d : UserMap) : List Username := d.map Prod.snd

/-- The whole mutable Coordinator state: just `connected_users`. -/
structure ServerState where
  connected_users : UserMap
deriving DecidableEq

/-- Outbound socket events emitted by the handlers. -/
inductive OutEvent where
  | receive_message_system (message : String)
  | receive_message_user (username message timestamp : String)
  | update_user_list (users : List Username)
  | registration_success (history : List ChatMessage)
  | show_typing (username : String)
  | hide_typing
deriving DecidableEq

/-- Recipient set of one `emit` call. -/
inductive Recipient where
  | toConn (c : Conn)
  | broadcastAll
  | broadcastExcept (c : Conn)
deriving DecidableEq

/-- One outbound emit directive: recipient set paired with the event. -/
abbrev Directive := Recipient × OutEvent

/-- A call into the remote store attempted by a handler. -/
inductive StoreCall where
  | getMessages
  | postMessage (username message : String)
  | isUsernameTaken (username : String)
deriving DecidableEq

/-- An unhandled Python exception escaping a handler. -/
inductive PyError where
  | keyError
deriving DecidableEq

/-- Successful run of a handler: new state, emit directives in order, store
calls in order. -/
structure HandlerResult where
  state : ServerState
  directives : List Directive
  storeCalls : List StoreCall
deriving DecidableEq

/-- Whether a directive with recipient `r` is delivered to connection `c`,
when `live` lists the currently connected sockets. -/
def deliversTo (live : List Conn) (r : Recipient) (c : Conn) : Prop :=
  match r with
  | .toConn t => c = t ∧ c ∈ live
  | .broadcastAll => c ∈ live
  | .broadcastExcept s => c ∈ live ∧ c ≠ s

/-- Embeds `handle_user_registration` (src/app.py lines 271-289).  Reads
`data['username']` (a missing key raises `KeyError` before anything else),
binds `connected_users[request.sid] = username` unconditionally, broadcasts
the join notice and the refreshed user list to everyone, then fetches the
history (substituting `[]` when the fetch raises) and emits
`registration_success` to the requesting sid only.  The source wraps the
fetch in a try/except (written with stray brace characters at lines 284 and
287, an evident slip; the evident try/except semantics is embedded). -/
def handle_user_registration (st : ServerState) (sid : Conn)
    (data : Option Username) (store : Store) : Except PyError HandlerResult :=
  match data with
  | none => .error .keyError
  | some username =>
      let users := dictSet st.connected_users sid username
      let joinMsg : Directive :=
        (.broadcastAll, .receive_message_system (username ++ " has joined the chat."))
      let listMsg : Directive := (.broadcastAll, .update_user_list (dictValues users))
      match store.get_messages with
      | .ok history =>
          .ok ⟨⟨users⟩, [joinMsg, listMsg, (.toConn sid, .registration_success history)],
               [.getMessages]⟩
      | .error _ =>
          .ok ⟨⟨users⟩, [joinMsg, listMsg, (.toConn sid, .registration_success [])],
               [.getMessages]⟩

/-- Embeds `handle_new_message` (src/app.py lines 292-311).  Looks up the
sender; `if username:` is false for an absent or empty username and the
handler then does nothing.  Otherwise it reads `data['message']` (missing
key raises `KeyError`), attempts the store POST, and on success broadcasts
the user message with a locally captured UTC timestamp (the `now` argument,
suffixed with Z as in the source), while on `RequestException` it emits the
fixed system error notice to the sender only. -/
def handle_new_message (st : ServerState) (sid : Conn)
    (data : Option String) (store : Store) (now : String) :
    Except PyError HandlerResult :=
  match dictGet st.connected_users sid with
  | none => .ok ⟨st, [], []⟩
  | some username =>
      if username = "" then .ok ⟨st, [], []⟩
      else
        match data with
        | none => .error .keyError
        | some message_text =>
            match store.post_message username message_text with
            | .ok _ =>
                .ok ⟨st,
                     [(.broadcastAll,
                       .receive_message_user username message_text (now ++ "Z"))],
                     [.postMessage username message_text]⟩
            | .error _ =>
                .ok ⟨st,
                     [(.toConn sid, .receive_message_system "Error: Could not send message.")],
                     [.postMessage username message_text]⟩

/-- Embeds `handle_typing` (src/app.py lines 314-319): only a sender with a
truthy username triggers the `show_typing` broadcast, which excludes the
sender (`include_self=False`). -/
def handle_typing (st : ServerState) (sid : Conn) : Except PyError HandlerResult :=
  match dictGet st.connected_users sid with
  | none => .ok ⟨st, [], []⟩
  | some username =>
      if username = "" then .ok ⟨st, [], []⟩
      else .ok ⟨st, [(.broadcastExcept sid, .show_typing username)], []⟩

/-- Embeds `handle_stop_typing` (src/app.py lines 321-324): broadcasts
`hide_typing` to everyone except the sender, with no session check at all. -/
def handle_stop_typing (st : ServerState) (sid : Conn) : Except PyError HandlerResult :=
  .ok ⟨st, [(.broadcastExcept sid, .hide_typing)], []⟩

/-- Embeds `handle_disconnect` (src/app.py lines 326-335): pops the entry of
the disconnecting sid unconditionally; when the popped username is truthy it
broadcasts the leave notice and the refreshed user list to all connected
sockets. -/
def handle_disconnect (st : ServerState) (sid : Conn) : Except PyError HandlerResult :=
  let popped := dictGet st.connected_users sid
  let users := dictRemove st.connected_users sid
  match popped with
  | none => .ok ⟨⟨users⟩, [], []⟩
  | some username =>
      if username = "" then .ok ⟨⟨users⟩, [], []⟩
      else
        .ok ⟨⟨users⟩,
             [(.broadcastAll, .receive_message_system (username ++ " has left the chat.")),
              (.broadcastAll, .update_user_list (dictValues users))],
             []⟩

/-- Response body of the `check_username` HTTP endpoint. -/
inductive CheckResp where
  | isTaken (b : Bool)
  | errorResp (msg : String)
deriving DecidableEq

/-- Embeds the `check_username` route (src/app.py lines 253-263): HTTP 400
when the query parameter is missing or empty (`if not username_to_check:`),
HTTP 500 when the store call raises (the 500 body carries the exception
text, abstracted here to a fixed string), HTTP 200 with the boolean
otherwise. -/
def check_username (store : Store) (usernameParam : Option String) : Nat × CheckResp :=
  match usernameParam with
  | none => (400, .errorResp "Username parameter is required")
  | some u =>
      if u = "" then (400, .errorResp "Username parameter is required")
      else
        match store.is_username_taken u with
        | .ok b => (200, .isTaken b)
        | .error _ => (500, .errorResp "RequestException")

/-- The transport-level disconnect step: the socket of the departing sid is
torn down before the handler broadcasts, so the live list the directives are
delivered against no longer contains it. -/
def disconnectStep (live : List Conn) (st : ServerState) (sid : Conn) :
    List Conn × Except PyError HandlerResult :=
  (live.filter (fun c => c ≠ sid), handle_disconnect st sid)

/-- One operation of a register/unregister sequence (the store a given
registration runs against is part of the operation, as the remote table may
change between calls). -/
inductive Op where
  | reg (c : Conn) (u : Username) (store : Store)
  | unreg (c : Conn)
deriving DecidableEq

/-- The handler run of one operation. -/
def applyOpResult (st : ServerState) : Op → Except PyError HandlerResult
  | .reg c u store => handle_user_registration st c (some u) store
  | .unreg c => handle_disconnect st c

/-- The state after one operation. -/
def applyOp (st : ServerState) (op : Op) : ServerState :=
  match applyOpResult st op with
  | .ok r => r.state
  | .error _ => st

/-- The state reached by a finite sequence of register/unregister
operations from the empty map. -/
def runOps (ops : List Op) : ServerState :=
  ops.foldl applyOp ⟨[]⟩

/-- A healthy store with an empty remote table. -/
def store0 : Store := ⟨[], false, false⟩

/-- A healthy store whose remote table already has a record by alice. -/
def storeTaken : Store := ⟨[⟨"alice", "hi", "2024-01-01T00:00:00"⟩], false, false⟩

/-- A store whose GET and POST calls both raise. -/
def storeDown : Store := ⟨[], true, true⟩

/-- The empty Coordinator state. -/
def emptyState : ServerState := ⟨[]⟩

/-! ### Association-list lemmas for the dict model -/

theorem dictGet_dictSet_self (d : UserMap) (k : Conn) (v : Username) :
    dictGet (dictSet d k v) k = some v := by
  induction d with
  | nil => simp [dictSet, dictGet]
  | cons p rest ih =>
      obtain ⟨k2, v2⟩ := p
      by_cases h : k = k2
      · simp [dictSet, dictGet, h]
      · simp [dictSet, dictGet, h, ih]

theorem dictGet_dictSet_ne (d : UserMap) (k c : Conn) (v : Username) (h : c ≠ k) :
    dictGet (dictSet d k v) c = dictGet d c := by
  induction d with
  | nil => simp [dictSet, dictGet, h]
  | cons p rest ih =>
      obtain ⟨k2, v2⟩ := p
      by_cases h2 : k = k2
      · subst h2
        simp [dictSet, dictGet, h]
      · by_cases h3 : c = k2 <;> simp [dictSet, dictGet, h2, h3, ih]

theorem mem_keys_dictSet (d : UserMap) (k c : Conn) (v : Username) :
    c ∈ (dictSet d k v).map Prod.fst ↔ c ∈ d.map Prod.fst ∨ c = k := by
  induction d with
  | nil => simp [dictSet]
  | cons p rest ih =>
      obtain ⟨k2, v2⟩ := p
      by_cases h : k = k2
      · subst h
        simp [dictSet]
        tauto
      · simp [dictSet, h, ih]
        tauto

theorem nodup_keys_dictSet (d : UserMap) (k : Conn) (v : Username)
    (hnd : (d.map Prod.fst).Nodup) : ((dictSet d k v).map Prod.fst).Nodup := by
  induction d with
  | nil => simp [dictSet]
  | cons p rest ih =>
      obtain ⟨k2, v2⟩ := p
      rw [List.map_cons, List.nodup_cons] at hnd
      by_cases h : k = k2
      · subst h
        rw [show dictSet ((k, v2) :: rest) k v = (k, v) :: rest from by simp [dictSet]]
        rw [List.map_cons, List.nodup_cons]
        exact hnd
      · simp only [dictSet, if_neg h, List.map_cons, List.nodup_cons]
        refine ⟨?_, ih hnd.2⟩
        rw [mem_keys_dictSet]
        rintro (hc | hc)
        · exact hnd.1 hc
        · exact h hc.symm

theorem dictRemove_sublist (d : UserMap) (k : Conn) :
    List.Sublist (dictRemove d k) d := by
  induction d with
  | nil => simp [dictRemove]
  | cons p rest ih =>
      obtain ⟨k2, v2⟩ := p
      by_cases h : k = k2
      · simp only [dictRemove, if_pos h]
        exact List.sublist_cons_self (k2, v2) rest
      · simp only [dictRemove, if_neg h]
        exact ih.cons₂ (k2, v2)

theorem nodup_keys_dictRemove (d : UserMap) (k : Conn)
    (hnd : (d.map Prod.fst).Nodup) : ((dictRemove d k).map Prod.fst).Nodup :=
  List.Nodup.sublist (List.Sublist.map Prod.fst (dictRemove_sublist d k)) hnd

theorem dictGet_eq_none_iff (d : UserMap) (k : Conn) :
    dictGet d k = none ↔ k ∉ d.map Prod.fst := by
  induction d with
  | nil => simp [dictGet]
  | cons p rest ih =>
      obtain ⟨k2, v2⟩ := p
      by_cases h : k = k2 <;> simp [dictGet, h, ih]

theorem mem_dictRemove (d : UserMap) (k : Conn) (p : Conn × Username)
    (hnd : (d.map Prod.fst).Nodup) (hmem : p ∈ dictRemove d k) :
    p ∈ d ∧ p.1 ≠ k := by
  induction d with
  | nil => simp [dictRemove] at hmem
  | cons q rest ih =>
      obtain ⟨k2, v2⟩ := q
      rw [List.map_cons, List.nodup_cons] at hnd
      by_cases h : k = k2
      · subst h
        rw [show dictRemove ((k, v2) :: rest) k = rest from by simp [dictRemove]] at hmem
        refine ⟨List.mem_cons_of_mem _ hmem, ?_⟩
        intro hk
        exact hnd.1 (List.mem_map.mpr ⟨p, hmem, hk⟩)
      · simp only [dictRemove, if_neg h] at hmem
        rcases List.mem_cons.mp hmem with hp | hp
        · subst hp
          exact ⟨List.mem_cons_self _ _, fun hk => h hk.symm⟩
        · obtain ⟨h1, h2⟩ := ih hnd.2 hp
          exact ⟨List.mem_cons_of_mem _ h1, h2⟩

theorem dictGet_dictRemove_self (d : UserMap) (k : Conn)
    (hnd : (d.map Prod.fst).Nodup) : dictGet (dictRemove d k) k = none := by
  rw [dictGet_eq_none_iff]
  intro hmem
  obtain ⟨p, hp, hpk⟩ := List.mem_map.mp hmem
  exact (mem_dictRemove d k p hnd hp).2 hpk

theorem dictGet_dictRemove_ne (d : UserMap) (k c : Conn) (h : c ≠ k) :
    dictGet (dictRemove d k) c = dictGet d c := by
  induction d with
  | nil => simp [dictRemove]
  | cons p rest ih =>
      obtain ⟨k2, v2⟩ := p
      by_cases h2 : k = k2
      · subst h2
        simp [dictRemove, dictGet, h]
      · by_cases h3 : c = k2 <;> simp [dictRemove, dictGet, h2, h3, ih]

theorem dictRemove_of_get_none (d : UserMap) (k : Conn)
    (h : dictGet d k = none) : dictRemove d k = d := by
  induction d with
  | nil => simp [dictRemove]
  | cons p rest ih =>
      obtain ⟨k2, v2⟩ := p
      by_cases h2 : k = k2
      · simp [dictGet, h2] at h
      · simp [dictGet, h2] at h
        simp [dictRemove, h2, ih h]

theorem dictGet_of_mem (d : UserMap) (c : Conn) (v : Username)
    (hnd : (d.map Prod.fst).Nodup) (hmem : (c, v) ∈ d) :
    dictGet d c = some v := by
  induction d with
  | nil => simp at hmem
  | cons p rest ih =>
      obtain ⟨k2, v2⟩ := p
      rw [List.map_cons, List.nodup_cons] at hnd
      rcases List.mem_cons.mp hmem with hp | hp
      · rw [Prod.mk.injEq] at hp
        obtain ⟨h1, h2⟩ := hp
        subst h1
        subst h2
        simp [dictGet]
      · by_cases h : c = k2
        · subst h
          exact absurd (List.mem_map_of_mem Prod.fst hp) hnd.1
        · simp [dictGet, h, ih hnd.2 hp]

/-! ### Reachability invariants of register/unregister sequences -/

theorem nodup_keys_applyOp (st : ServerState) (op : Op)
    (hnd : (st.connected_users.map Prod.fst).Nodup) :
    ((applyOp st op).connected_users.map Prod.fst).Nodup := by
  cases op with
  | reg c u store =>
      cases hg : store.get_messages with
      | ok history =>
          simpa [applyOp, applyOpResult, handle_user_registration, hg] using
            nodup_keys_dictSet st.connected_users c u hnd
      | error e =>
          simpa [applyOp, applyOpResult, handle_user_registration, hg] using
            nodup_keys_dictSet st.connected_users c u hnd
  | unreg c =>
      have hrem := nodup_keys_dictRemove st.connected_users c hnd
      cases hget : dictGet st.connected_users c with
      | none => simpa [applyOp, applyOpResult, handle_disconnect, hget] using hrem
      | some u =>
          by_cases hu : u = "" <;>
            simpa [applyOp, applyOpResult, handle_disconnect, hget, hu] using hrem

theorem nodup_keys_foldl (ops : List Op) (st : ServerState)
    (hnd : (st.connected_users.map Prod.fst).Nodup) :
    (((ops.foldl applyOp st).connected_users.map Prod.fst)).Nodup := by
  induction ops generalizing st with
  | nil => simpa using hnd
  | cons op rest ih => exact ih (applyOp st op) (nodup_keys_applyOp st op hnd)

theorem nodup_keys_runOps (ops : List Op) :
    ((runOps ops).connected_users.map Prod.fst).Nodup :=
  nodup_keys_foldl ops ⟨[]⟩ (by simp)

/-! ### Fixtures reused by witnesses and counterexamples -/

/-- State with the single session of connection 1 as alice, reachable as
`runOps [Op.reg 1 "alice" store0]`. -/
def stAlice : ServerState := ⟨[(1, "alice")]⟩

/-- Two connections registering the same name against the empty store. -/
def dupOps : List Op := [Op.reg 1 "alice" store0, Op.reg 2 "alice" store0]

/-! ### Claim theorems -/

/-- Claim C5 (confirmed): when a sender with a live Session relays a message
and the store append raises, the handler emits the fixed system error notice
to the sending connection only, broadcasts no user message, and leaves the
Session map unchanged; with the sender among the live sockets, the notice is
delivered to exactly the sender. -/
theorem C5_theorem (st : ServerState) (sid : Conn) (u text now : String)
    (store : Store) (hu : dictGet st.connected_users sid = some u)
    (hne : u ≠ "") (hfail : store.postFails = true) :
    handle_new_message st sid (some text) store now =
      .ok ⟨st,
           [(Recipient.toConn sid,
             OutEvent.receive_message_system "Error: Could not send message.")],
           [StoreCall.postMessage u text]⟩ ∧
    (∀ live : List Conn, ∀ c : Conn, sid ∈ live →
        (deliversTo live (Recipient.toConn sid) c ↔ c = sid)) := by
  constructor
  · simp [handle_new_message, hu, hne, Store.post_message, hfail]
  · intro live c hmem
    simp only [deliversTo]
    exact ⟨fun h => h.1, fun h => ⟨h, h ▸ hmem⟩⟩

/-- Witness for C5 at a concrete bound sender and a failing store. -/
theorem C5_witness :
    dictGet stAlice.connected_users 1 = some "alice" ∧
    ("alice" : String) ≠ "" ∧ storeDown.postFails = true ∧
    handle_new_message stAlice 1 (some "hi") storeDown "2024-01-01T00:00:00" =
      .ok ⟨stAlice,
           [(Recipient.toConn 1,
             OutEvent.receive_message_system "Error: Could not send message.")],
           [StoreCall.postMessage "alice" "hi"]⟩ :=
  ⟨rfl, by decide, rfl,
   (C5_theorem stAlice 1 "alice" "hi" "2024-01-01T00:00:00" storeDown rfl
      (by decide) rfl).1⟩

/-- Claim C6 (confirmed): a relayed message from a connection with no live
Session is a silent no-op: no store call is attempted, nothing is emitted,
and the state is unchanged. -/
theorem C6_theorem (st : ServerState) (sid : Conn) (data : Option String)
    (store : Store) (now : String)
    (hu : dictGet st.connected_users sid = none) :
    handle_new_message st sid data store now = .ok ⟨st, [], []⟩ := by
  simp [handle_new_message, hu]

/-- Witness for C6 at a concrete unbound connection. -/
theorem C6_witness :
    dictGet emptyState.connected_users 7 = none ∧
    handle_new_message emptyState 7 (some "hi") store0 "2024-01-01T00:00:00" =
      .ok ⟨emptyState, [], []⟩ :=
  ⟨rfl, C6_theorem emptyState 7 (some "hi") store0 "2024-01-01T00:00:00" rfl⟩

/-- Claim C7 (confirmed): when the history fetch during registration raises,
the handler still succeeds, binds the connection, broadcasts the join notice
and user list, and emits `registration_success` with the empty history to
the registering connection only (a directive addressed to a single
connection can only reach that connection). -/
theorem C7_theorem (st : ServerState) (sid : Conn) (u : Username)
    (store : Store) (hfail : store.getFails = true) :
    handle_user_registration st sid (some u) store =
      .ok ⟨⟨dictSet st.connected_users sid u⟩,
           [(Recipient.broadcastAll,
             OutEvent.receive_message_system (u ++ " has joined the chat.")),
            (Recipient.broadcastAll,
             OutEvent.update_user_list (dictValues (dictSet st.connected_users sid u))),
            (Recipient.toConn sid, OutEvent.registration_success [])],
           [StoreCall.getMessages]⟩ ∧
    (∀ live : List Conn, ∀ c : Conn,
        deliversTo live (Recipient.toConn sid) c → c = sid) := by
  constructor
  · simp [handle_user_registration, Store.get_messages, hfail]
  · intro live c h
    exact h.1

/-- Witness for C7 at a concrete registration against a failing store. -/
theorem C7_witness :
    storeDown.getFails = true ∧
    handle_user_registration emptyState 3 (some "carol") storeDown =
      .ok ⟨⟨[(3, "carol")]⟩,
           [(Recipient.broadcastAll,
             OutEvent.receive_message_system "carol has joined the chat."),
            (Recipient.broadcastAll, OutEvent.update_user_list ["carol"]),
            (Recipient.toConn 3, OutEvent.registration_success [])],
           [StoreCall.getMessages]⟩ :=
  ⟨rfl, (C7_theorem emptyState 3 "carol" storeDown rfl).1⟩

/-- Claim C10 (confirmed): a `register_user` payload without the username
key, and a `new_message` payload without the message key sent by a bound
connection, both make the handler raise an unhandled key-lookup error; in
the embedding the `.error .keyError` return carries no state, no directive
and no store call, because the source raises at the key lookup, which
precedes every mutation, store call and emit. -/
theorem C10_theorem (st : ServerState) (sid : Conn) (store : Store)
    (now : String) (u : Username)
    (hu : dictGet st.connected_users sid = some u) (hne : u ≠ "") :
    handle_user_registration st sid none store = .error .keyError ∧
    handle_new_message st sid none store now = .error .keyError := by
  constructor
  · rfl
  · simp [handle_new_message, hu, hne]

/-- Witness for C10 at a concrete bound connection. -/
theorem C10_witness :
    dictGet stAlice.connected_users 1 = some "alice" ∧
    ("alice" : String) ≠ "" ∧
    (handle_user_registration stAlice 1 none store0 = .error .keyError ∧
     handle_new_message stAlice 1 none store0 "2024-01-01T00:00:00" =
       .error .keyError) :=
  ⟨rfl, by decide, C10_theorem stAlice 1 store0 "2024-01-01T00:00:00" "alice" rfl (by decide)⟩

/-- Claim C4 refuted: a connection without a Session that sends
`stop_typing` is not a no-op — the handler broadcasts `hide_typing` to every
other connection unconditionally; here the unbound connection 1 causes a
`hide_typing` delivery to connection 2. -/
theorem C4_counterexample :
    dictGet emptyState.connected_users 1 = none ∧
    handle_stop_typing emptyState 1 =
      .ok ⟨emptyState, [(Recipient.broadcastExcept 1, OutEvent.hide_typing)], []⟩ ∧
    deliversTo [1, 2] (Recipient.broadcastExcept 1) 2 := by
  refine ⟨rfl, rfl, ?_⟩
  simp [deliversTo]

/-- Claim C4 (amended): `typing` from a connection without a Session is a
no-op, but `stop_typing` always broadcasts `hide_typing` to all connections
except the sender, whether or not the sender has a Session. -/
theorem C4_theorem (st : ServerState) (sid : Conn)
    (hu : dictGet st.connected_users sid = none) :
    handle_typing st sid = .ok ⟨st, [], []⟩ ∧
    (∀ st2 : ServerState, ∀ sid2 : Conn,
        handle_stop_typing st2 sid2 =
          .ok ⟨st2, [(Recipient.broadcastExcept sid2, OutEvent.hide_typing)], []⟩) :=
  ⟨by simp [handle_typing, hu], fun _ _ => rfl⟩

/-- Witness for C4 at a concrete unbound connection. -/
theorem C4_witness :
    dictGet emptyState.connected_users 1 = none ∧
    (handle_typing emptyState 1 = .ok ⟨emptyState, [], []⟩ ∧
     (∀ st2 : ServerState, ∀ sid2 : Conn,
        handle_stop_typing st2 sid2 =
          .ok ⟨st2, [(Recipient.broadcastExcept sid2, OutEvent.hide_typing)], []⟩)) :=
  ⟨rfl, C4_theorem emptyState 1 rfl⟩

/-- Claim C1 refuted: with a store that reports alice as taken, registering
alice from connection 2 does not fail — it binds the connection, changes the
map and emits three events. -/
theorem C1_counterexample :
    storeTaken.is_username_taken "alice" = .ok true ∧
    handle_user_registration emptyState 2 (some "alice") storeTaken =
      .ok ⟨⟨[(2, "alice")]⟩,
           [(Recipient.broadcastAll,
             OutEvent.receive_message_system "alice has joined the chat."),
            (Recipient.broadcastAll, OutEvent.update_user_list ["alice"]),
            (Recipient.toConn 2, OutEvent.registration_success storeTaken.records)],
           [StoreCall.getMessages]⟩ ∧
    (⟨[(2, "alice")]⟩ : ServerState) ≠ emptyState ∧
    dictGet ([(2, "alice")] : UserMap) 2 = some "alice" := by
  refine ⟨rfl, rfl, ?_, rfl⟩
  decide

/-- Claim C1 (amended): the registration handler performs no availability
check at all: even when the store reports the desired name taken (and the
name is nonempty), registration succeeds, binds the connection, queries the
store only for the history, and emits events; the only store-driven
rejection of a taken name is the advisory HTTP `check_username` endpoint,
which answers 200 with `is_taken = true`. -/
theorem C1_theorem (st : ServerState) (sid : Conn) (u : Username)
    (store : Store) (htaken : store.is_username_taken u = .ok true)
    (hne : u ≠ "") :
    (∃ r : HandlerResult,
        handle_user_registration st sid (some u) store = .ok r ∧
        dictGet r.state.connected_users sid = some u ∧
        r.storeCalls = [StoreCall.getMessages] ∧
        StoreCall.isUsernameTaken u ∉ r.storeCalls ∧
        r.directives ≠ []) ∧
    check_username store (some u) = (200, CheckResp.isTaken true) := by
  have hgf : store.getFails = false := by
    by_contra hgf
    rw [Bool.not_eq_false] at hgf
    simp [Store.is_username_taken, hgf] at htaken
  have hg : store.get_messages = .ok store.records := by
    simp [Store.get_messages, hgf]
  constructor
  · refine ⟨⟨⟨dictSet st.connected_users sid u⟩,
        [(Recipient.broadcastAll,
          OutEvent.receive_message_system (u ++ " has joined the chat.")),
         (Recipient.broadcastAll,
          OutEvent.update_user_list (dictValues (dictSet st.connected_users sid u))),
         (Recipient.toConn sid, OutEvent.registration_success store.records)],
        [StoreCall.getMessages]⟩, ?_, ?_, rfl, ?_, ?_⟩
    · simp [handle_user_registration, hg]
    · exact dictGet_dictSet_self st.connected_users sid u
    · simp
    · simp
  · simp [check_username, hne, htaken]

/-- Witness for C1 at a concrete taken name. -/
theorem C1_witness :
    storeTaken.is_username_taken "alice" = .ok true ∧
    ("alice" : String) ≠ "" ∧
    ((∃ r : HandlerResult,
        handle_user_registration emptyState 2 (some "alice") storeTaken = .ok r ∧
        dictGet r.state.connected_users 2 = some "alice" ∧
        r.storeCalls = [StoreCall.getMessages] ∧
        StoreCall.isUsernameTaken "alice" ∉ r.storeCalls ∧
        r.directives ≠ []) ∧
     check_username storeTaken (some "alice") = (200, CheckResp.isTaken true)) :=
  ⟨rfl, by decide, C1_theorem emptyState 2 "alice" storeTaken rfl (by decide)⟩

/-- Claim C2 refuted: the sequence that registers alice from connection 1
and again from connection 2 is reachable and yields a Presence list with a
duplicate username and two live sessions bound to the same name. -/
theorem C2_counterexample :
    (runOps dupOps).connected_users = [(1, "alice"), (2, "alice")] ∧
    dictValues (runOps dupOps).connected_users = ["alice", "alice"] ∧
    ¬ (dictValues (runOps dupOps).connected_users).Nodup ∧
    dictGet (runOps dupOps).connected_users 1 = some "alice" ∧
    dictGet (runOps dupOps).connected_users 2 = some "alice" := by
  refine ⟨rfl, rfl, ?_, rfl, rfl⟩
  decide

/-- Claim C2 (amended): over every register/unregister sequence from the
empty state, the map keeps at most one Session per Connection (distinct
keys), and every user list emitted by an operation equals exactly the
usernames, in insertion order and with multiplicity, of the connections with
a live Session afterwards; duplicate usernames across distinct connections
are however reachable, as no uniqueness is enforced. -/
theorem C2_theorem (ops : List Op) (op : Op) (r : HandlerResult)
    (h : applyOpResult (runOps ops) op = .ok r) :
    ((runOps ops).connected_users.map Prod.fst).Nodup ∧
    (r.state.connected_users.map Prod.fst).Nodup ∧
    (∀ rec : Recipient, ∀ l : List Username,
        (rec, OutEvent.update_user_list l) ∈ r.directives →
        l = dictValues r.state.connected_users) := by
  have h0 := nodup_keys_runOps ops
  have hstate : r.state = applyOp (runOps ops) op := by
    simp [applyOp, h]
  refine ⟨h0, ?_, ?_⟩
  · rw [hstate]
    exact nodup_keys_applyOp _ op h0
  · intro rec l hmem
    cases op with
    | reg c u store =>
        cases hg : store.get_messages with
        | ok history =>
            simp only [applyOpResult, handle_user_registration, hg] at h
            injection h with h
            subst h
            simp at hmem
            simp [hmem]
        | error e =>
            simp only [applyOpResult, handle_user_registration, hg] at h
            injection h with h
            subst h
            simp at hmem
            simp [hmem]
    | unreg c =>
        cases hget : dictGet (runOps ops).connected_users c with
        | none =>
            simp only [applyOpResult, handle_disconnect, hget] at h
            injection h with h
            subst h
            simp at hmem
        | some u =>
            by_cases hu : u = ""
            · simp only [applyOpResult, handle_disconnect, hget, hu, if_pos] at h
              injection h with h
              subst h
              simp at hmem
            · simp only [applyOpResult, handle_disconnect, hget, if_neg hu] at h
              injection h with h
              subst h
              simp at hmem
              simp [hmem]

/-- The run of the first registration of alice. -/
def regAliceResult : HandlerResult :=
  ⟨⟨[(1, "alice")]⟩,
   [(Recipient.broadcastAll,
     OutEvent.receive_message_system "alice has joined the chat."),
    (Recipient.broadcastAll, OutEvent.update_user_list ["alice"]),
    (Recipient.toConn 1, OutEvent.registration_success [])],
   [StoreCall.getMessages]⟩

/-- Witness for C2 at a concrete one-step sequence. -/
theorem C2_witness :
    applyOpResult (runOps []) (Op.reg 1 "alice" store0) = .ok regAliceResult ∧
    (((runOps []).connected_users.map Prod.fst).Nodup ∧
     (regAliceResult.state.connected_users.map Prod.fst).Nodup ∧
     (∀ rec : Recipient, ∀ l : List Username,
        (rec, OutEvent.update_user_list l) ∈ regAliceResult.directives →
        l = dictValues regAliceResult.state.connected_users)) :=
  ⟨rfl, C2_theorem [] (Op.reg 1 "alice" store0) regAliceResult rfl⟩

/-- Claim C3 refuted: connection 1, bound to alice in a reachable state,
registers again as bob and ends bound to bob — a Bound to Bound rename
without any disconnect. -/
theorem C3_counterexample :
    runOps [Op.reg 1 "alice" store0] = stAlice ∧
    dictGet stAlice.connected_users 1 = some "alice" ∧
    handle_user_registration stAlice 1 (some "bob") store0 =
      .ok ⟨⟨[(1, "bob")]⟩,
           [(Recipient.broadcastAll,
             OutEvent.receive_message_system "bob has joined the chat."),
            (Recipient.broadcastAll, OutEvent.update_user_list ["bob"]),
            (Recipient.toConn 1, OutEvent.registration_success [])],
           [StoreCall.getMessages]⟩ ∧
    dictGet ([(1, "bob")] : UserMap) 1 = some "bob" ∧
    ("bob" : String) ≠ "alice" := by
  refine ⟨rfl, rfl, rfl, rfl, ?_⟩
  decide

/-- Claim C3 (amended): a register on a Bound connection always succeeds and
rebinds the connection in place to the new username: the Bound to Bound
rename transition is reachable without a disconnect. -/
theorem C3_theorem (st : ServerState) (sid : Conn) (u0 u1 : Username)
    (store : Store) (_hb : dictGet st.connected_users sid = some u0) :
    ∃ r : HandlerResult,
      handle_user_registration st sid (some u1) store = .ok r ∧
      dictGet r.state.connected_users sid = some u1 := by
  cases hg : store.get_messages with
  | ok history =>
      refine ⟨⟨⟨dictSet st.connected_users sid u1⟩,
          [(Recipient.broadcastAll,
            OutEvent.receive_message_system (u1 ++ " has joined the chat.")),
           (Recipient.broadcastAll,
            OutEvent.update_user_list (dictValues (dictSet st.connected_users sid u1))),
           (Recipient.toConn sid, OutEvent.registration_success history)],
          [StoreCall.getMessages]⟩, ?_, ?_⟩
      · simp [handle_user_registration, hg]
      · exact dictGet_dictSet_self st.connected_users sid u1
  | error e =>
      refine ⟨⟨⟨dictSet st.connected_users sid u1⟩,
          [(Recipient.broadcastAll,
            OutEvent.receive_message_system (u1 ++ " has joined the chat.")),
           (Recipient.broadcastAll,
            OutEvent.update_user_list (dictValues (dictSet st.connected_users sid u1))),
           (Recipient.toConn sid, OutEvent.registration_success [])],
          [StoreCall.getMessages]⟩, ?_, ?_⟩
      · simp [handle_user_registration, hg]
      · exact dictGet_dictSet_self st.connected_users sid u1

/-- Witness for C3 at the concrete alice-to-bob rename. -/
theorem C3_witness :
    dictGet stAlice.connected_users 1 = some "alice" ∧
    (∃ r : HandlerResult,
      handle_user_registration stAlice 1 (some "bob") store0 = .ok r ∧
      dictGet r.state.connected_users 1 = some "bob") :=
  ⟨rfl, C3_theorem stAlice 1 "alice" "bob" store0 rfl⟩

/-- Claim C8 refuted on its parenthetical: in the reachable state where
connections 1 and 2 are both bound to alice, disconnecting 1 emits a
refreshed Presence list that still contains alice. -/
theorem C8_counterexample :
    (runOps dupOps).connected_users = [(1, "alice"), (2, "alice")] ∧
    handle_disconnect (runOps dupOps) 1 =
      .ok ⟨⟨[(2, "alice")]⟩,
           [(Recipient.broadcastAll,
             OutEvent.receive_message_system "alice has left the chat."),
            (Recipient.broadcastAll, OutEvent.update_user_list ["alice"])],
           []⟩ ∧
    "alice" ∈ dictValues ([(2, "alice")] : UserMap) := by
  refine ⟨rfl, rfl, ?_⟩
  simp [dictValues]

/-- Claim C8 (amended): disconnecting a connection with no Session is a
no-op with no broadcast; disconnecting a bound connection (nonempty
username, distinct keys) removes exactly its Session and broadcasts the
leave notice followed by the refreshed Presence list to all remaining
connections, the departing socket being gone from the live list and hence
never a delivery target; the refreshed list no longer holds the departing
entry, and drops the username itself exactly when no other connection is
bound to the same name (otherwise the name stays listed). -/
theorem C8_theorem (live : List Conn) (st : ServerState) (sid : Conn)
    (u : Username) (hnd : (st.connected_users.map Prod.fst).Nodup)
    (hu : dictGet st.connected_users sid = some u) (hne : u ≠ "") :
    disconnectStep live st sid =
      (live.filter (fun c => c ≠ sid),
       .ok ⟨⟨dictRemove st.connected_users sid⟩,
            [(Recipient.broadcastAll,
              OutEvent.receive_message_system (u ++ " has left the chat.")),
             (Recipient.broadcastAll,
              OutEvent.update_user_list (dictValues (dictRemove st.connected_users sid)))],
            []⟩) ∧
    dictGet (dictRemove st.connected_users sid) sid = none ∧
    (∀ c : Conn,
        deliversTo (live.filter (fun c2 => c2 ≠ sid)) Recipient.broadcastAll c ↔
          (c ∈ live ∧ c ≠ sid)) ∧
    ((∀ c : Conn, c ≠ sid → dictGet st.connected_users c ≠ some u) →
        u ∉ dictValues (dictRemove st.connected_users sid)) ∧
    (∀ st2 : ServerState, dictGet st2.connected_users sid = none →
        handle_disconnect st2 sid = .ok ⟨st2, [], []⟩) := by
  refine ⟨?_, ?_, ?_, ?_, ?_⟩
  · simp [disconnectStep, handle_disconnect, hu, hne]
  · exact dictGet_dictRemove_self st.connected_users sid hnd
  · intro c
    simp [deliversTo, List.mem_filter]
  · intro hother hmem
    rw [dictValues] at hmem
    obtain ⟨p, hp, hpu⟩ := List.mem_map.mp hmem
    obtain ⟨hpd, hpk⟩ := mem_dictRemove st.connected_users sid p hnd hp
    have hget : dictGet st.connected_users p.1 = some p.2 :=
      dictGet_of_mem st.connected_users p.1 p.2 hnd (by simpa using hpd)
    exact hother p.1 hpk (by rw [hget, hpu])
  · intro st2 h2
    have hrem : dictRemove st2.connected_users sid = st2.connected_users :=
      dictRemove_of_get_none st2.connected_users sid h2
    simp [handle_disconnect, h2, hrem]

/-- Witness for C8 at the concrete single-session state. -/
theorem C8_witness :
    (stAlice.connected_users.map Prod.fst).Nodup ∧
    dictGet stAlice.connected_users 1 = some "alice" ∧
    ("alice" : String) ≠ "" ∧
    (disconnectStep [1, 2] stAlice 1 =
      ([1, 2].filter (fun c => c ≠ 1),
       .ok ⟨⟨dictRemove stAlice.connected_users 1⟩,
            [(Recipient.broadcastAll,
              OutEvent.receive_message_system ("alice" ++ " has left the chat.")),
             (Recipient.broadcastAll,
              OutEvent.update_user_list (dictValues (dictRemove stAlice.connected_users 1)))],
            []⟩) ∧
     dictGet (dictRemove stAlice.connected_users 1) 1 = none ∧
     (∀ c : Conn,
        deliversTo ([1, 2].filter (fun c2 => c2 ≠ 1)) Recipient.broadcastAll c ↔
          (c ∈ [1, 2] ∧ c ≠ 1)) ∧
     ((∀ c : Conn, c ≠ 1 → dictGet stAlice.connected_users c ≠ some "alice") →
        "alice" ∉ dictValues (dictRemove stAlice.connected_users 1)) ∧
     (∀ st2 : ServerState, dictGet st2.connected_users 1 = none →
        handle_disconnect st2 1 = .ok ⟨st2, [], []⟩)) :=
  ⟨by decide, rfl, by decide, C8_theorem [1, 2] stAlice 1 "alice" (by decide) rfl (by decide)⟩

/-- Claim C9 (confirmed): each handler touches at most the Session entry of
the calling connection: registration and disconnect leave the bindings of
every other connection unchanged, and message relay, typing and stop-typing
never change the state at all. -/
theorem C9_theorem (st : ServerState) (sid c : Conn) (hc : c ≠ sid) :
    (∀ data : Option Username, ∀ store : Store, ∀ r : HandlerResult,
        handle_user_registration st sid data store = .ok r →
        dictGet r.state.connected_users c = dictGet st.connected_users c) ∧
    (∀ r : HandlerResult, handle_disconnect st sid = .ok r →
        dictGet r.state.connected_users c = dictGet st.connected_users c) ∧
    (∀ data : Option String, ∀ store : Store, ∀ now : String, ∀ r : HandlerResult,
        handle_new_message st sid data store now = .ok r → r.state = st) ∧
    (∀ r : HandlerResult, handle_typing st sid = .ok r → r.state = st) ∧
    (∀ r : HandlerResult, handle_stop_typing st sid = .ok r → r.state = st) := by
  refine ⟨?_, ?_, ?_, ?_, ?_⟩
  · intro data store r h
    cases data with
    | none => simp [handle_user_registration] at h
    | some u =>
        cases hg : store.get_messages with
        | ok history =>
            simp only [handle_user_registration, hg] at h
            injection h with h
            subst h
            exact dictGet_dictSet_ne st.connected_users sid c u hc
        | error e =>
            simp only [handle_user_registration, hg] at h
            injection h with h
            subst h
            exact dictGet_dictSet_ne st.connected_users sid c u hc
  · intro r h
    cases hget : dictGet st.connected_users sid with
    | none =>
        simp only [handle_disconnect, hget] at h
        injection h with h
        subst h
        exact dictGet_dictRemove_ne st.connected_users sid c hc
    | some u =>
        by_cases hu : u = ""
        · simp only [handle_disconnect, hget, hu, if_pos] at h
          injection h with h
          subst h
          exact dictGet_dictRemove_ne st.connected_users sid c hc
        · simp only [handle_disconnect, hget, if_neg hu] at h
          injection h with h
          subst h
          exact dictGet_dictRemove_ne st.connected_users sid c hc
  · intro data store now r h
    cases hget : dictGet st.connected_users sid with
    | none =>
        simp only [handle_new_message, hget] at h
        injection h with h
        subst h
        rfl
    | some u =>
        by_cases hu : u = ""
        · simp only [handle_new_message, hget, hu, if_pos] at h
          injection h with h
          subst h
          rfl
        · cases data with
          | none => simp [handle_new_message, hget, hu] at h
          | some text =>
              cases hp : store.post_message u text with
              | ok v2 =>
                  simp only [handle_new_message, hget, if_neg hu, hp] at h
                  injection h with h
                  subst h
                  rfl
              | error e =>
                  simp only [handle_new_message, hget, if_neg hu, hp] at h
                  injection h with h
                  subst h
                  rfl
  · intro r h
    cases hget : dictGet st.connected_users sid with
    | none =>
        simp only [handle_typing, hget] at h
        injection h with h
        subst h
        rfl
    | some u =>
        by_cases hu : u = ""
        · simp only [handle_typing, hget, hu, if_pos] at h
          injection h with h
          subst h
          rfl
        · simp only [handle_typing, hget, if_neg hu] at h
          injection h with h
          subst h
          rfl
  · intro r h
    injection h with h
    subst h
    rfl

/-- Witness for C9 at concrete distinct connections. -/
theorem C9_witness :
    (2 : Conn) ≠ 1 ∧
    ((∀ data : Option Username, ∀ store : Store, ∀ r : HandlerResult,
        handle_user_registration stAlice 1 data store = .ok r →
        dictGet r.state.connected_users 2 = dictGet stAlice.connected_users 2) ∧
     (∀ r : HandlerResult, handle_disconnect stAlice 1 = .ok r →
        dictGet r.state.connected_users 2 = dictGet stAlice.connected_users 2) ∧
     (∀ data : Option String, ∀ store : Store, ∀ now : String, ∀ r : HandlerResult,
        handle_new_message stAlice 1 data store now = .ok r → r.state = stAlice) ∧
     (∀ r : HandlerResult, handle_typing stAlice 1 = .ok r → r.state = stAlice) ∧
     (∀ r : HandlerResult, handle_stop_typing stAlice 1 = .ok r → r.state = stAlice)) :=
  ⟨by decide, C9_theorem stAlice 1 2 (by decide)⟩

end ChatRoom
